import Mathlib

/-!
Verification of the AI-Tutor personalized learning system.

Shallow embedding of the recommendation pipeline:
`data_preparation.py` (mastery scoring), `performance_analysis.py`
(rule-based leveling, weak-concept lookup), `similarity_engine.py`
(student vectors, cosine-similarity peer search, peer patterns) and
`recommendation_engine.py` (content/behavior fusion, learning path,
study schedule, plan orchestration).

Conventions of the embedding:
* pandas rows become Lean structures; tables become lists of rows.
* Python floats become `ℚ`.  The cosine-similarity kernel itself is a
  floating-point library call whose exact values no claim depends on,
  so it is a parameter `cos : List ℚ → List ℚ → ℚ` threaded through the
  similarity engine; every theorem holds for every choice of `cos`.
* `Python None` becomes `Option.none`; a raised exception becomes
  `Except.error`; functions that may raise return `Except` paired with
  the (possibly updated) engine state, and a raise leaves the state as
  it was at the raise point, exactly as an uncaught Python exception
  does.
* Python `list.sort` is documented to be a stable sort.  It is embedded
  as `pySortOn`: insertion sort over elements tagged with their original
  position, comparing by the key and, on equal keys, by the original
  position.  That is extensionally the unique stable sort.
-/

/-- One row of the `student_features` table after `prepare_data` and
`analyze_concept_mastery` (the columns the verified claims touch). -/
structure FeatureRow where
  student_id : Nat
  concept_id : Nat
  concept_name : String
  mastery_score : ℚ
  mastery_level : String
deriving Repr, DecidableEq

/-- One row of the frame `get_weak_concepts` returns: the projection
`[concept_id, concept_name, mastery_score, mastery_level]`. -/
structure WeakRow where
  concept_id : Nat
  concept_name : String
  mastery_score : ℚ
  mastery_level : String
deriving Repr, DecidableEq

/-- One row of the learning-resource catalog. -/
structure Resource where
  resource_id : Nat
  concept_id : Nat
  concept_name : String
  resource_name : String
  resource_type : String
  difficulty : String
  duration_minutes : Nat
  rating : ℚ
  view_count : Nat
  url : String
deriving Repr, DecidableEq

/-- One recommendation dictionary as built by the recommendation engine. -/
structure Rec where
  concept_id : Nat
  concept_name : String
  resource_id : Nat
  resource_name : String
  resource_type : String
  difficulty : String
  duration_minutes : Nat
  rating : ℚ
  url : String
  reason : String
deriving Repr, DecidableEq

/-- One row of the concept metadata table. -/
structure ConceptMeta where
  concept_id : Nat
  concept_name : String
  subject : String
  level : Int
  prerequisite_id : Int
deriving Repr, DecidableEq

/-- One row of the student table (the columns the claims touch). -/
structure StudentRow where
  student_id : Nat
  learning_style : String
deriving Repr, DecidableEq

/-- One step of the learning path built by `create_learning_path`. -/
structure PathStep where
  step_type : String
  concept_id : Nat
  concept_name : String
  current_mastery : ℚ
  target_mastery : ℚ
deriving Repr, DecidableEq

-- ==================================================================
-- data_preparation.py :: calculate_mastery_score (lines 59-72)
-- ==================================================================

/-- `calculate_mastery_score(row)` of `data_preparation.py`:
base score `accuracy*100`, a time penalty `min(10, (t-60)/10)` when
`avg_time_taken > 60`, an attempt penalty `min(5, (a-1)*2)` when
`avg_attempts > 1.5`, floored at 0. -/
def calculate_mastery_score (accuracy avg_time_taken avg_attempts : ℚ) : ℚ :=
  let base_score := accuracy * 100
  let time_penalty : ℚ :=
    if avg_time_taken > 60 then min 10 ((avg_time_taken - 60) / 10) else 0
  let attempt_penalty : ℚ :=
    if avg_attempts > 1.5 then min 5 ((avg_attempts - 1) * 2) else 0
  max 0 (base_score - time_penalty - attempt_penalty)

-- ==================================================================
-- performance_analysis.py :: analyze_concept_mastery (lines 15-41)
-- ==================================================================

/-- The rule-based level of `analyze_concept_mastery`:
Advanced at 85, Intermediate at 70, Beginner at 50, else Struggling. -/
def masteryLevel (score : ℚ) : String :=
  if score ≥ 85 then "Advanced"
  else if score ≥ 70 then "Intermediate"
  else if score ≥ 50 then "Beginner"
  else "Struggling"

/-- `analyze_concept_mastery`: `None` or an empty frame is returned
unchanged; otherwise every row gets `mastery_level` assigned from its
`mastery_score` by the rule above. -/
def analyze_concept_mastery (student_features : Option (List FeatureRow)) :
    Option (List FeatureRow) :=
  match student_features with
  | none => none
  | some rows =>
    if rows.isEmpty then some rows
    else some (rows.map fun r => { r with mastery_level := masteryLevel r.mastery_score })

/-- Rank of a mastery level in the tier order, used to state that the
leveling is monotone. -/
def levelRank (level : String) : Nat :=
  if level = "Struggling" then 0
  else if level = "Beginner" then 1
  else if level = "Intermediate" then 2
  else 3

-- ==================================================================
-- Python list.sort, embedded as a stable sort
-- ==================================================================

/-- The order used to embed Python's stable `list.sort(key=...)`:
compare by key; on equal keys, by original position.  Elements are
tagged `(position, element)`. -/
def pySortRel {α : Type} {κ : Type} [LinearOrder κ] (key : α → κ)
    (a b : Nat × α) : Prop :=
  key a.2 < key b.2 ∨ (key a.2 = key b.2 ∧ a.1 ≤ b.1)

instance {α : Type} {κ : Type} [LinearOrder κ] (key : α → κ) :
    DecidableRel (pySortRel key) := fun a b =>
  inferInstanceAs (Decidable (_ ∨ _))

/-- Python `list.sort(key=...)` on position-tagged elements. -/
def pyTagSort {α : Type} {κ : Type} [LinearOrder κ] (key : α → κ)
    (l : List α) : List (Nat × α) :=
  (l.enum).insertionSort (pySortRel key)

/-- Python `list.sort(key=...)`: ascending stable sort by `key`.
(`reverse=True` is embedded by negating the key, which matches
Python's semantics: equal elements keep their original order.) -/
def pySortOn {α : Type} {κ : Type} [LinearOrder κ] (key : α → κ)
    (l : List α) : List α :=
  (pyTagSort key l).map Prod.snd

-- ==================================================================
-- performance_analysis.py :: get_weak_concepts (lines 124-145)
-- ==================================================================

/-- The column projection `get_weak_concepts` returns. -/
def projWeak (r : FeatureRow) : WeakRow :=
  { concept_id := r.concept_id, concept_name := r.concept_name,
    mastery_score := r.mastery_score, mastery_level := r.mastery_level }

/-- The filter `mastery_level.isin(["Struggling", "Beginner"])`. -/
def isWeakLevel (r : FeatureRow) : Bool :=
  r.mastery_level == "Struggling" || r.mastery_level == "Beginner"

/-- `get_weak_concepts(student_id, student_features)`: `None` for a
`None` or empty feature table, `None` for a student with no rows;
otherwise the student's rows with level Struggling or Beginner, sorted
ascending by `mastery_score`, projected to the four output columns.
The function raises nothing: its codomain carries no error case. -/
def get_weak_concepts (student_id : Nat)
    (student_features : Option (List FeatureRow)) : Option (List WeakRow) :=
  match student_features with
  | none => none
  | some rows =>
    if rows.isEmpty then none
    else
      let student_data := rows.filter fun r => r.student_id == student_id
      if student_data.isEmpty then none
      else
        let weak_concepts := student_data.filter isWeakLevel
        some ((pySortOn (fun r => r.mastery_score) weak_concepts).map projWeak)

-- ==================================================================
-- similarity_engine.py :: state and create_student_vectors (16-38)
-- ==================================================================

/-- The pivoted student × concept frame `self.student_vectors`: column
labels (concept ids) and rows (student id, scores aligned with `cols`). -/
structure StudentVectors where
  cols : List Nat
  rows : List (Nat × List ℚ)
deriving Repr, DecidableEq

/-- pandas `DataFrame.empty`: some axis has length zero. -/
def StudentVectors.isEmptyFrame (sv : StudentVectors) : Bool :=
  sv.rows.isEmpty || sv.cols.isEmpty

/-- The `SimilarityEngine`'s mutable state: `self.student_vectors` and
`self.similarity_matrix`, both `None` until built. -/
structure EngineState where
  student_vectors : Option StudentVectors
  similarity_matrix : Option (List (List ℚ))
deriving Repr, DecidableEq

/-- Keep-first deduplication by membership-checked append. -/
def dedupFirst (l : List Nat) : List Nat :=
  l.foldl (fun acc a => if a ∈ acc then acc else acc ++ [a]) []

/-- pandas `mean` aggregation. -/
def listMean (l : List ℚ) : ℚ := l.sum / l.length

/-- The pivot index: the distinct student ids, sorted ascending
(pandas sorts the pivot index). -/
def pivotIds (student_concept_df : List FeatureRow) : List Nat :=
  (dedupFirst (student_concept_df.map (·.student_id))).insertionSort (· ≤ ·)

/-- The pivot columns before completion: distinct concept ids, sorted
ascending. -/
def pivotCols (student_concept_df : List FeatureRow) : List Nat :=
  (dedupFirst (student_concept_df.map (·.concept_id))).insertionSort (· ≤ ·)

/-- The `for concept_id in all_concepts` completion loop: append a
column for each concept not yet present. -/
def colsWithAll (student_concept_df : List FeatureRow)
    (all_concepts : List Nat) : List Nat :=
  all_concepts.foldl (fun cs c => if c ∈ cs then cs else cs ++ [c])
    (pivotCols student_concept_df)

/-- One pivot cell: the mean mastery score of the (student, concept)
group, 0.0 when the group is empty (`fillna(0.0)`). -/
def pivotCell (student_concept_df : List FeatureRow) (sid cid : Nat) : ℚ :=
  let scores := (student_concept_df.filter fun r =>
    r.student_id == sid && r.concept_id == cid).map (·.mastery_score)
  if scores.isEmpty then 0 else listMean scores

/-- `create_student_vectors(student_concept_df, all_concepts)`: pivot
to a student × concept matrix of mean mastery scores (pandas sorts both
pivot axes ascending), append a zero column for each concept of
`all_concepts` not yet present, fill missing cells with 0.0.  Stores
the frame in `self.student_vectors`; the cached similarity matrix is
left as it was (the code does not invalidate it). -/
def create_student_vectors (s : EngineState)
    (student_concept_df : List FeatureRow) (all_concepts : List Nat) :
    EngineState × StudentVectors :=
  let cols := colsWithAll student_concept_df all_concepts
  let sv : StudentVectors :=
    { cols := cols,
      rows := (pivotIds student_concept_df).map fun sid =>
        (sid, cols.map (pivotCell student_concept_df sid)) }
  ({ s with student_vectors := some sv }, sv)

-- ==================================================================
-- similarity_engine.py :: compute_similarity (lines 43-56)
-- ==================================================================

/-- `cosine_similarity(values)`: the full pairwise kernel over the row
vectors; the kernel function itself is the parameter `cos`. -/
def cosMatrix (cos : List ℚ → List ℚ → ℚ) (rows : List (Nat × List ℚ)) :
    List (List ℚ) :=
  rows.map fun u => rows.map fun v => cos u.2 v.2

/-- `compute_similarity()`: raises a `ValueError` when the vectors were
never built or the frame is empty — the state, hence the cached matrix,
is unchanged in that case — otherwise caches and returns the cosine
matrix. -/
def compute_similarity (cos : List ℚ → List ℚ → ℚ) (s : EngineState) :
    EngineState × Except String (List (List ℚ)) :=
  match s.student_vectors with
  | none =>
    (s, .error "Student vectors not initialized. Call create_student_vectors first.")
  | some sv =>
    if sv.isEmptyFrame then
      (s, .error "Student vectors not initialized. Call create_student_vectors first.")
    else
      let M := cosMatrix cos sv.rows
      ({ s with similarity_matrix := some M }, .ok M)

-- ==================================================================
-- similarity_engine.py :: find_similar_students (lines 61-88)
-- ==================================================================

/-- pandas `Index.get_loc`: position of the first occurrence of a
label. -/
def get_loc (a : Nat) : List Nat → Nat
  | [] => 0
  | b :: l => if b = a then 0 else get_loc a l + 1

/-- The enumeration loop of `find_similar_students`: every
`(index[idx], score)` with `idx != student_idx`, in row order. -/
def peerCandidates (ids : List Nat) (student_idx : Nat) (scores : List ℚ) :
    List (Nat × ℚ) :=
  (scores.enum.filter fun p => p.1 != student_idx).map
    fun p => (ids.getD p.1 0, p.2)

/-- `find_similar_students(student_id, top_k=5, top_n=None)`: computes
the similarity matrix lazily, raises when `student_id` is not in the
vector index, lets `top_n` override `top_k` when it is given, excludes
the student's own row, sorts by similarity descending (stable) and caps
the result at the chosen size.

The two positional accesses raise on a stale cached matrix, exactly as
the source does: `self.similarity_matrix[student_idx]` raises
`IndexError` when the cached matrix has fewer rows than the student's
position, and the loop's `self.student_vectors.index[idx]` raises
`IndexError` at the first enumerated position beyond the index — since
`student_idx` is in range, that raise happens if and only if the matrix
row is longer than the vector index, which is what the eager length
check decides. -/
def find_similar_students (cos : List ℚ → List ℚ → ℚ) (s : EngineState)
    (student_id : Nat) (top_k : Nat := 5) (top_n : Option Nat := none) :
    EngineState × Except String (List (Nat × ℚ)) :=
  let lazily :=
    match s.similarity_matrix with
    | none => compute_similarity cos s
    | some M => (s, .ok M)
  match lazily with
  | (s1, .error e) => (s1, .error e)
  | (s1, .ok M) =>
    match s1.student_vectors with
    | none => (s1, .error "AttributeError: student_vectors is None")
    | some sv =>
      let ids := sv.rows.map Prod.fst
      if student_id ∈ ids then
        let k := top_n.getD top_k
        let student_idx := get_loc student_id ids
        match M[student_idx]? with
        | none =>
          (s1, .error "IndexError: index out of bounds for axis 0")
        | some similarity_scores =>
          if similarity_scores.length ≤ ids.length then
            let results := peerCandidates ids student_idx similarity_scores
            (s1, .ok ((pySortOn (fun r : Nat × ℚ => -r.2) results).take k))
          else
            (s1, .error "IndexError: index out of range")
      else
        (s1, .error "Student ID not found")

-- ==================================================================
-- similarity_engine.py :: analyze_peer_patterns (lines 93-132)
-- ==================================================================

/-- One entry of a peer's `strong_concepts` list. -/
structure StrongConcept where
  concept_id : Nat
  mastery_score : ℚ
deriving Repr, DecidableEq

/-- One entry of the `peer_patterns` mapping (the dict is kept in
insertion order, which is the similar-students order). -/
structure PeerPattern where
  peer_id : Nat
  similarity : ℚ
  strong_concepts : List StrongConcept
deriving Repr, DecidableEq

/-- The strong-concept list of one peer: the entries of the peer's
mastery vector with score at or above the threshold, in vector column
order, capped at 5. -/
def strongConceptsOf (sv : StudentVectors) (peer_id : Nat)
    (mastery_threshold : ℚ) : List StrongConcept :=
  let peer_mastery := ((sv.rows.find? fun r => r.1 == peer_id).map
    Prod.snd).getD []
  (((sv.cols.zip peer_mastery).filter fun p =>
    decide (mastery_threshold ≤ p.2)).map fun p =>
      { concept_id := p.1, mastery_score := p.2 : StrongConcept }).take 5

/-- `analyze_peer_patterns(student_id, top_k=5, mastery_threshold=70)`. -/
def analyze_peer_patterns (cos : List ℚ → List ℚ → ℚ) (s : EngineState)
    (student_id : Nat) (top_k : Nat := 5) (mastery_threshold : ℚ := 70) :
    EngineState × Except String (List PeerPattern) :=
  match find_similar_students cos s student_id top_k none with
  | (s1, .error e) => (s1, .error e)
  | (s1, .ok similar_students) =>
    match s1.student_vectors with
    | none => (s1, .error "AttributeError: student_vectors is None")
    | some sv =>
      (s1, .ok (similar_students.map fun p =>
        { peer_id := p.1, similarity := p.2,
          strong_concepts := strongConceptsOf sv p.1 mastery_threshold }))

-- ==================================================================
-- recommendation_engine.py :: the engine and its tables
-- ==================================================================

/-- The `RecommendationEngine`'s injected tables (the analyzer and the
similarity engine are passed separately). -/
structure RecEngine where
  resources : List Resource
  concepts : List ConceptMeta
  student_features : List FeatureRow
  students : List StudentRow
deriving Repr

/-- Case-insensitive literal substring test, the embedding of
`str.contains(name, case=False, regex=False)`. -/
def strContainsCI (s pat : String) : Bool :=
  ((s.toLower).splitOn (pat.toLower)).length ≥ 2

/-- Resource candidates for one weak concept: primary `concept_id`
match, else the substring fallback on `concept_name` (only for a
non-blank name). -/
def conceptResources (resources : List Resource) (w : WeakRow) :
    List Resource :=
  let primary := resources.filter fun r => r.concept_id == w.concept_id
  if primary.isEmpty then
    if w.concept_name.trim ≠ "" then
      resources.filter fun r => strContainsCI r.concept_name w.concept_name
    else primary
  else primary

/-- The difficulty filter of `get_content_based_recommendations`. -/
def suitableByDifficulty (concept_resources : List Resource)
    (mastery_level : String) : List Resource :=
  if mastery_level = "Struggling" then
    concept_resources.filter fun r => r.difficulty == "Beginner"
  else if mastery_level = "Beginner" then
    concept_resources.filter fun r =>
      r.difficulty == "Beginner" || r.difficulty == "Intermediate"
  else concept_resources

/-- The recommendation dictionary built for one content-based hit. -/
def contentRec (w : WeakRow) (r : Resource) : Rec :=
  { concept_id := w.concept_id, concept_name := w.concept_name,
    resource_id := r.resource_id, resource_name := r.resource_name,
    resource_type := r.resource_type, difficulty := r.difficulty,
    duration_minutes := r.duration_minutes, rating := r.rating,
    url := r.url,
    reason := "Low mastery in " ++ w.concept_name ++ " (" ++
      toString w.mastery_score ++ "%)" }

/-- `get_content_based_recommendations(student_id, weak_concepts,
top_n=3)`: per weak concept, candidates filtered by difficulty, ranked
by (rating desc, view_count desc), top_n each, capped at 10 overall. -/
def get_content_based_recommendations (E : RecEngine) (student_id : Nat)
    (weak_concepts : List WeakRow) (top_n : Nat := 3) : List Rec :=
  (weak_concepts.flatMap fun w =>
    let cr := conceptResources E.resources w
    if cr.isEmpty then []
    else
      let suitable := (pySortOn
        (fun r : Resource => toLex (-r.rating, -(r.view_count : ℚ)))
        (suitableByDifficulty cr w.mastery_level)).take top_n
      suitable.map (contentRec w)).take 10

/-- The recommendation dictionary built for one behavior-based hit.
`strong_concept.get("concept_name", concept_id)` falls back to the
concept id: the peer-pattern entries carry no `concept_name` key. -/
def behaviorRec (peer_id : Nat) (similarity : ℚ) (sc : StrongConcept)
    (best : Resource) : Rec :=
  { concept_id := sc.concept_id, concept_name := toString sc.concept_id,
    resource_id := best.resource_id, resource_name := best.resource_name,
    resource_type := best.resource_type, difficulty := best.difficulty,
    duration_minutes := best.duration_minutes, rating := best.rating,
    url := best.url,
    reason := "Used by similar student " ++ toString peer_id ++
      " (similarity " ++ toString similarity ++ ")" }

/-- The resource pick for one strong concept: the top of the catalog
rows for the concept sorted by rating descending, or nothing
(`continue`) when no resource matches. -/
def behaviorPick (E : RecEngine) (peer_id : Nat) (similarity : ℚ)
    (sc : StrongConcept) : Option Rec :=
  match (pySortOn (fun r : Resource => -r.rating)
      (E.resources.filter fun r => r.concept_id == sc.concept_id)).head? with
  | none => none
  | some best => some (behaviorRec peer_id similarity sc best)

/-- One strong concept's contribution in
`get_behavior_based_recommendations`: skipped (`continue`) when the
target student's own mastery on the concept exists and is at least
80, else the best-rated matching resource if any. -/
def behaviorRecForConcept (E : RecEngine) (student_id peer_id : Nat)
    (similarity : ℚ) (sc : StrongConcept) : Option Rec :=
  match (E.student_features.filter fun r =>
      r.student_id == student_id && r.concept_id == sc.concept_id).head? with
  | some fr =>
    if 80 ≤ fr.mastery_score then none
    else behaviorPick E peer_id similarity sc
  | none => behaviorPick E peer_id similarity sc

/-- `get_behavior_based_recommendations(student_id, similar_students,
peer_patterns)` (the `similar_students` argument is unused by the
source body). -/
def get_behavior_based_recommendations (E : RecEngine) (student_id : Nat)
    (peer_patterns : List PeerPattern) : List Rec :=
  peer_patterns.flatMap fun pp =>
    pp.strong_concepts.filterMap
      (behaviorRecForConcept E student_id pp.peer_id pp.similarity)

-- ==================================================================
-- recommendation_engine.py :: create_learning_path (lines 142-178)
-- ==================================================================

/-- A weak-concept row enriched with its metadata `level` and
`prerequisite_id` (first matching metadata row). -/
structure EnrichedWeak where
  row : WeakRow
  level : Int
  prerequisite_id : Int
deriving Repr, DecidableEq

/-- The enrichment loop: rows whose concept has no metadata row are
dropped (`continue`). -/
def enrichWeak (concepts : List ConceptMeta) (weak_concepts : List WeakRow) :
    List EnrichedWeak :=
  weak_concepts.filterMap fun w =>
    (concepts.find? fun m => m.concept_id == w.concept_id).map fun m =>
      { row := w, level := m.level, prerequisite_id := m.prerequisite_id }

/-- One step of the path: `target_mastery` fixed at 80. -/
def mkStep (e : EnrichedWeak) : PathStep :=
  { step_type := "main", concept_id := e.row.concept_id,
    concept_name := e.row.concept_name,
    current_mastery := e.row.mastery_score, target_mastery := 80 }

/-- The sort key `(x["level"], x["mastery_score"])` (tuple comparison
is lexicographic). -/
def enrichKey (e : EnrichedWeak) : Lex (Int × ℚ) :=
  toLex (e.level, e.row.mastery_score)

/-- The visited-set loop of `create_learning_path`: deduplicate by
concept id, keeping the first occurrence. -/
def buildPath (visited : List Nat) : List EnrichedWeak → List PathStep
  | [] => []
  | e :: rest =>
    if e.row.concept_id ∈ visited then buildPath visited rest
    else mkStep e :: buildPath (e.row.concept_id :: visited) rest

/-- `create_learning_path(student_id, weak_concepts)` (`student_id` is
unused by the source body). -/
def create_learning_path (E : RecEngine) (student_id : Nat)
    (weak_concepts : List WeakRow) : List PathStep :=
  buildPath [] (pySortOn enrichKey (enrichWeak E.concepts weak_concepts))

-- ==================================================================
-- recommendation_engine.py :: fusion, schedule, plan (lines 183-246)
-- ==================================================================

/-- Insertion into a Python dict: overwrite in place on key collision
(the key keeps its first-insertion position), else append. -/
def dictInsert (m : List ((Nat × Nat) × Rec)) (k : Nat × Nat) (v : Rec) :
    List ((Nat × Nat) × Rec) :=
  if m.any fun e => e.1 == k then
    m.map fun e => if e.1 == k then (k, v) else e
  else m ++ [(k, v)]

/-- The dict key `(r["concept_id"], r["resource_id"])`. -/
def recKey (r : Rec) : Nat × Nat := (r.concept_id, r.resource_id)

/-- The fusion dict comprehension of `generate_personalized_plan`. -/
def mergeRecs (rs : List Rec) : List ((Nat × Nat) × Rec) :=
  rs.foldl (fun m r => dictInsert m (recKey r) r) []

/-- One scheduled activity. -/
structure SchedItem where
  concept : String
  activity : String
  duration : String
  resource : String
deriving Repr, DecidableEq

/-- The weekday list of `create_study_schedule`. -/
def weekDays : List String :=
  ["Monday", "Tuesday", "Wednesday", "Thursday", "Friday", "Saturday",
   "Sunday"]

/-- The activity dictionary appended for one recommendation. -/
def schedItem (r : Rec) : SchedItem :=
  { concept := r.concept_name, activity := r.resource_type,
    duration := toString r.duration_minutes ++ " minutes",
    resource := r.resource_name }

/-- `create_study_schedule(recommendations, learning_style)`: the first
7 recommendations assigned round-robin (`i % 7`) to the weekdays. -/
def create_study_schedule (recommendations : List Rec)
    (learning_style : String) : List (String × List SchedItem) :=
  let assigned := (recommendations.take 7).enum.map fun p =>
    (weekDays.getD (p.1 % 7) "", schedItem p.2)
  weekDays.map fun d => (d, (assigned.filter fun a => a.1 == d).map Prod.snd)

/-- The aggregate returned by `generate_personalized_plan`. -/
structure Plan where
  student_id : Nat
  learning_style : String
  weak_concepts_count : Nat
  learning_path : List PathStep
  recommendations : List Rec
  study_schedule : List (String × List SchedItem)
deriving Repr, DecidableEq, Inhabited

/-- `generate_personalized_plan(student_id)`: weak concepts, similar
students (top_k 5), peer patterns (top_k 5, threshold 70 — the call
uses the defaults of `analyze_peer_patterns`), content and behavior
recommendations fused by the dict keyed `(concept_id, resource_id)`,
learning-style lookup (raises on an unknown student), schedule over the
full merged values, plan with the first 5 merged values. -/
def generate_personalized_plan (cos : List ℚ → List ℚ → ℚ) (E : RecEngine)
    (s : EngineState) (student_id : Nat) :
    EngineState × Except String Plan :=
  let weakval := get_weak_concepts student_id (some E.student_features)
  match find_similar_students cos s student_id 5 none with
  | (s1, .error e) => (s1, .error e)
  | (s1, .ok _similar_students) =>
    match analyze_peer_patterns cos s1 student_id 5 70 with
    | (s2, .error e) => (s2, .error e)
    | (s2, .ok peer_patterns) =>
      match weakval with
      | none =>
        (s2, .error "AttributeError: NoneType object has no attribute iterrows")
      | some weak_concepts =>
        let content_recs :=
          get_content_based_recommendations E student_id weak_concepts 3
        let behavior_recs :=
          get_behavior_based_recommendations E student_id peer_patterns
        let recommendations := mergeRecs (content_recs ++ behavior_recs)
        match (E.students.filter fun st => st.student_id == student_id).head? with
        | none =>
          (s2, .error "IndexError: single positional indexer is out-of-bounds")
        | some st =>
          let vals := recommendations.map Prod.snd
          (s2, .ok
            { student_id := student_id,
              learning_style := st.learning_style,
              weak_concepts_count := weak_concepts.length,
              learning_path := create_learning_path E student_id weak_concepts,
              recommendations := vals.take 5,
              study_schedule := create_study_schedule vals st.learning_style })

-- ==================================================================
-- Concrete fixtures (used by witnesses and counterexamples)
-- ==================================================================

/-- A concrete similarity kernel for fixture runs; the fixture states
carry a cached matrix, which is what the code then reads. -/
def cosZero : List ℚ → List ℚ → ℚ := fun _ _ => 0

/-- Fixture student vectors: students 1 and 2 over the single concept
10, with mastery 40 and 75. -/
def svFix : StudentVectors :=
  { cols := [10], rows := [(1, [40]), (2, [75])] }

/-- Fixture similarity matrix for `svFix`. -/
def matFix : List (List ℚ) := [[1, 9/10], [9/10, 1]]

/-- Fixture engine state: vectors and matrix both present. -/
def stateFix : EngineState :=
  { student_vectors := some svFix, similarity_matrix := some matFix }

/-- Fixture feature table: student 1 is weak (score 40) on concept 10;
student 2 holds score 75 on it. -/
def featuresFix : List FeatureRow :=
  [{ student_id := 1, concept_id := 10, concept_name := "Algebra",
     mastery_score := 40, mastery_level := "Struggling" },
   { student_id := 2, concept_id := 10, concept_name := "Algebra",
     mastery_score := 75, mastery_level := "Intermediate" }]

/-- Fixture resource catalog: one Beginner resource for concept 10. -/
def resourcesFix : List Resource :=
  [{ resource_id := 500, concept_id := 10, concept_name := "Algebra",
     resource_name := "Algebra Basics", resource_type := "video",
     difficulty := "Beginner", duration_minutes := 30, rating := 5,
     view_count := 1000, url := "example.org" }]

/-- Fixture concept metadata. -/
def conceptsFix : List ConceptMeta :=
  [{ concept_id := 10, concept_name := "Algebra", subject := "Math",
     level := 1, prerequisite_id := 0 }]

/-- Fixture students table. -/
def studentsFix : List StudentRow :=
  [{ student_id := 1, learning_style := "visual" },
   { student_id := 2, learning_style := "visual" }]

/-- Fixture recommendation engine. -/
def engineFix : RecEngine :=
  { resources := resourcesFix, concepts := conceptsFix,
    student_features := featuresFix, students := studentsFix }

/-- The peer patterns the fixture state yields for student 1 (peer 2,
whose only strong concept has score 75). -/
def patsFix : List PeerPattern :=
  [{ peer_id := 2, similarity := 9/10,
     strong_concepts := [{ concept_id := 10, mastery_score := 75 }] }]

/-- The plan the fixture pipeline produces for student 1. -/
def planFix : Plan :=
  (generate_personalized_plan cosZero engineFix stateFix 1).2.toOption.getD
    default

-- ==================================================================
-- C1: mastery score stays in [0, 100]
-- ==================================================================

/-- C1: for any accuracy in `[0,1]`, `avg_time_taken ≥ 0` and
`avg_attempts ≥ 0`, the mastery score computed by
`calculate_mastery_score` lies in the closed interval `[0, 100]`. -/
theorem mastery_score_in_unit_range (accuracy avg_time_taken avg_attempts : ℚ)
    (hacc0 : 0 ≤ accuracy) (hacc1 : accuracy ≤ 1)
    (ht : 0 ≤ avg_time_taken) (ha : 0 ≤ avg_attempts) :
    0 ≤ calculate_mastery_score accuracy avg_time_taken avg_attempts ∧
      calculate_mastery_score accuracy avg_time_taken avg_attempts ≤ 100 := by
  unfold calculate_mastery_score
  have hbase : accuracy * 100 ≤ 100 := by nlinarith
  have htp : (0 : ℚ) ≤
      (if avg_time_taken > 60 then min 10 ((avg_time_taken - 60) / 10) else 0) := by
    split
    · rename_i h
      exact le_min (by norm_num) (by linarith)
    · exact le_refl 0
  have hap : (0 : ℚ) ≤
      (if avg_attempts > 1.5 then min 5 ((avg_attempts - 1) * 2) else 0) := by
    split
    · rename_i h
      have h1 : (1.5 : ℚ) = 3 / 2 := by norm_num
      exact le_min (by norm_num) (by nlinarith)
    · exact le_refl 0
  constructor
  · exact le_max_left 0 _
  · exact max_le (by norm_num) (by linarith)

/-- Witness for C1 at the spec's scenario: accuracy 0.9, 40 seconds,
1 attempt. -/
theorem mastery_score_in_unit_range_witness :
    0 ≤ calculate_mastery_score (9/10) 40 1 ∧
      calculate_mastery_score (9/10) 40 1 ≤ 100 :=
  mastery_score_in_unit_range (9/10) 40 1 (by norm_num) (by norm_num)
    (by norm_num) (by norm_num)

-- ==================================================================
-- Lemmas about the embedded Python sort
-- ==================================================================

instance pySortRel_total {α : Type} {κ : Type} [LinearOrder κ] (key : α → κ) :
    IsTotal (Nat × α) (pySortRel key) := by
  constructor
  intro a b
  rcases lt_trichotomy (key a.2) (key b.2) with h | h | h
  · exact Or.inl (Or.inl h)
  · rcases Nat.le_total a.1 b.1 with hn | hn
    · exact Or.inl (Or.inr ⟨h, hn⟩)
    · exact Or.inr (Or.inr ⟨h.symm, hn⟩)
  · exact Or.inr (Or.inl h)

instance pySortRel_trans {α : Type} {κ : Type} [LinearOrder κ] (key : α → κ) :
    IsTrans (Nat × α) (pySortRel key) := by
  constructor
  intro a b c hab hbc
  rcases hab with hab | ⟨hab, hab'⟩ <;> rcases hbc with hbc | ⟨hbc, hbc'⟩
  · exact Or.inl (hab.trans hbc)
  · exact Or.inl (lt_of_lt_of_eq hab hbc)
  · exact Or.inl (lt_of_eq_of_lt hab hbc)
  · exact Or.inr ⟨hab.trans hbc, hab'.trans hbc'⟩

theorem pyTagSort_perm {α : Type} {κ : Type} [LinearOrder κ] (key : α → κ)
    (l : List α) : (pyTagSort key l).Perm l.enum :=
  List.perm_insertionSort (pySortRel key) l.enum

theorem pySortOn_perm {α : Type} {κ : Type} [LinearOrder κ] (key : α → κ)
    (l : List α) : (pySortOn key l).Perm l := by
  have h := (pyTagSort_perm key l).map Prod.snd
  rwa [List.enum_map_snd] at h

theorem pyTagSort_sorted {α : Type} {κ : Type} [LinearOrder κ] (key : α → κ)
    (l : List α) : (pyTagSort key l).Pairwise (pySortRel key) :=
  List.sorted_insertionSort (pySortRel key) l.enum

theorem enum_pairwise_fst_lt {α : Type} (l : List α) :
    (l.enum).Pairwise fun a b => a.1 < b.1 := by
  rw [List.enum_eq_zip_range]
  have hlen : (List.range l.length).length ≤ l.length := by
    simp [List.length_range]
  have hmap : List.map Prod.fst ((List.range l.length).zip l) = List.range l.length :=
    List.map_fst_zip _ _ hlen
  have h : List.Pairwise (fun a b => a < b)
      (List.map Prod.fst ((List.range l.length).zip l)) := by
    rw [hmap]; exact List.pairwise_lt_range l.length
  exact List.pairwise_map.mp h

/-- The stable sort, strictly ordered: either the key goes strictly up,
or keys are equal and the original position goes strictly up (Python's
tie-break by original order). -/
theorem pyTagSort_pairwise_strict {α : Type} {κ : Type} [LinearOrder κ]
    (key : α → κ) (l : List α) :
    (pyTagSort key l).Pairwise fun a b =>
      key a.2 < key b.2 ∨ (key a.2 = key b.2 ∧ a.1 < b.1) := by
  have hs := pyTagSort_sorted key l
  have hne : (pyTagSort key l).Pairwise fun a b => a.1 ≠ b.1 := by
    have h1 : (l.enum).Pairwise fun a b => a.1 ≠ b.1 :=
      (enum_pairwise_fst_lt l).imp fun h => Nat.ne_of_lt h
    exact ((pyTagSort_perm key l).pairwise_iff
      (fun h => Ne.symm h)).mpr h1
  refine (hs.and hne).imp ?_
  rintro a b ⟨hab | ⟨heq, hle⟩, hne⟩
  · exact Or.inl hab
  · exact Or.inr ⟨heq, lt_of_le_of_ne hle hne⟩

theorem pySortOn_pairwise_le {α : Type} {κ : Type} [LinearOrder κ]
    (key : α → κ) (l : List α) :
    (pySortOn key l).Pairwise fun a b => key a ≤ key b := by
  refine List.Pairwise.map Prod.snd ?_ (pyTagSort_sorted key l)
  rintro a b (hab | ⟨heq, _⟩)
  · exact le_of_lt hab
  · exact le_of_eq heq

-- ==================================================================
-- C5: mastery level is the 50/70/85 step function, monotone
-- ==================================================================

theorem levelRank_masteryLevel (q : ℚ) :
    levelRank (masteryLevel q) =
      if 85 ≤ q then 3 else if 70 ≤ q then 2 else if 50 ≤ q then 1 else 0 := by
  unfold masteryLevel levelRank
  split_ifs with h1 h2 h3 <;> simp_all

/-- C5: `analyze_concept_mastery` assigns a deterministic step function
of `mastery_score` with boundaries exactly at 50, 70 and 85, inclusive
on the lower bound of each tier, and the assignment is monotone in the
score. -/
theorem mastery_level_step_function :
    (∀ q : ℚ,
      (masteryLevel q = "Advanced" ↔ 85 ≤ q) ∧
      (masteryLevel q = "Intermediate" ↔ 70 ≤ q ∧ q < 85) ∧
      (masteryLevel q = "Beginner" ↔ 50 ≤ q ∧ q < 70) ∧
      (masteryLevel q = "Struggling" ↔ q < 50)) ∧
    (∀ p q : ℚ, p ≤ q →
      levelRank (masteryLevel p) ≤ levelRank (masteryLevel q)) ∧
    (∀ rows : List FeatureRow, rows ≠ [] →
      analyze_concept_mastery (some rows) =
        some (rows.map fun r =>
          { r with mastery_level := masteryLevel r.mastery_score })) := by
  refine ⟨?_, ?_, ?_⟩
  · intro q
    unfold masteryLevel
    split_ifs with h1 h2 h3 <;>
      refine ⟨?_, ?_, ?_, ?_⟩ <;> simp_all <;> intros <;> linarith
  · intro p q hpq
    rw [levelRank_masteryLevel, levelRank_masteryLevel]
    split_ifs <;> first | omega | linarith
  · intro rows hne
    simp only [analyze_concept_mastery]
    rw [if_neg]
    simpa [List.isEmpty_iff] using hne

-- ==================================================================
-- C3: weak-concept lookup: empty result on no data, else the
-- Struggling/Beginner rows sorted ascending by mastery score
-- ==================================================================

/-- C3: `get_weak_concepts` yields an empty result (Python `None`, zero
rows) rather than an error when the feature table is `None` or empty or
when the student has no rows; when it does return rows they are exactly
the student's Struggling/Beginner rows, sorted ascending by
`mastery_score`. -/
theorem get_weak_concepts_spec (student_id : Nat) (rows : List FeatureRow) :
    get_weak_concepts student_id none = none ∧
    get_weak_concepts student_id (some []) = none ∧
    ((rows.filter fun r => r.student_id == student_id).isEmpty = true →
      get_weak_concepts student_id (some rows) = none) ∧
    (∀ out, get_weak_concepts student_id (some rows) = some out →
      out.Perm (((rows.filter fun r => r.student_id == student_id).filter
          isWeakLevel).map projWeak) ∧
      out.Pairwise fun a b => a.mastery_score ≤ b.mastery_score) := by
  refine ⟨rfl, by simp only [get_weak_concepts]; simp, ?_, ?_⟩
  · intro h
    simp only [get_weak_concepts]
    by_cases h1 : rows.isEmpty
    · simp [h1]
    · simp [h1, h]
  · intro out hout
    simp only [get_weak_concepts] at hout
    split_ifs at hout with h1 h2
    injection hout with hout
    subst hout
    constructor
    · exact (pySortOn_perm (fun r : FeatureRow => r.mastery_score) _).map projWeak
    · refine List.Pairwise.map projWeak ?_
        (pySortOn_pairwise_le (fun r : FeatureRow => r.mastery_score) _)
      intro a b hab
      exact hab

-- ==================================================================
-- C9: compute_similarity on an uninitialized engine
-- ==================================================================

/-- C9: `compute_similarity` raises the initialization `ValueError`
whenever the student vectors were never built or the frame is empty,
and the state — in particular the cached similarity matrix — is left
exactly as it was. -/
theorem compute_similarity_uninitialized (cos : List ℚ → List ℚ → ℚ)
    (s : EngineState)
    (h : s.student_vectors = none ∨
      ∃ sv, s.student_vectors = some sv ∧ sv.isEmptyFrame = true) :
    (compute_similarity cos s).1 = s ∧
      (compute_similarity cos s).1.similarity_matrix = s.similarity_matrix ∧
      ∃ e, (compute_similarity cos s).2 = Except.error e := by
  rcases h with h | ⟨sv, h, hemp⟩
  · simp [compute_similarity, h]
  · simp [compute_similarity, h, hemp]

/-- Witness for C9: a fresh engine, vectors never built. -/
theorem compute_similarity_uninitialized_witness :
    (compute_similarity (fun _ _ => 0) ⟨none, none⟩).1 = ⟨none, none⟩ ∧
      (compute_similarity (fun _ _ => 0)
        ⟨none, none⟩).1.similarity_matrix = (none : Option (List (List ℚ))) ∧
      ∃ e, (compute_similarity (fun _ _ => 0) ⟨none, none⟩).2 =
        Except.error e :=
  compute_similarity_uninitialized (fun _ _ => 0) ⟨none, none⟩ (Or.inl rfl)

-- ==================================================================
-- C10: the undocumented top_n alias of find_similar_students
-- ==================================================================

/-- C10: when `top_n` is given it replaces `top_k` as the result-size
cap, whatever `top_k` was; when `top_n` is `None` the cap is `top_k`
(any successful result has at most `top_k` entries). -/
theorem find_similar_students_top_n_alias (cos : List ℚ → List ℚ → ℚ)
    (s : EngineState) (student_id top_k n : Nat) :
    (find_similar_students cos s student_id top_k (some n) =
      find_similar_students cos s student_id n none) ∧
    (∀ out, (find_similar_students cos s student_id top_k none).2 =
        Except.ok out → out.length ≤ top_k) := by
  constructor
  · rfl
  · intro out hout
    simp only [find_similar_students] at hout
    split at hout
    · simp at hout
    · split at hout
      · simp at hout
      · split at hout
        · split at hout
          · simp at hout
          · split at hout
            · simp only [Option.getD] at hout
              injection hout with hout
              rw [← hout, List.length_take]
              exact min_le_left _ _
            · simp at hout
        · simp at hout

-- ==================================================================
-- Lemmas about get_loc and peerCandidates
-- ==================================================================

theorem get_loc_lt_length {a : Nat} {l : List Nat} (h : a ∈ l) :
    get_loc a l < l.length := by
  induction l with
  | nil => cases h
  | cons b l ih =>
    simp only [get_loc]
    split
    · simp
    · rename_i hba
      have hal : a ∈ l := by
        rcases List.mem_cons.mp h with h1 | h1
        · exact absurd h1.symm hba
        · exact h1
      simpa using Nat.succ_lt_succ (ih hal)

theorem getD_get_loc {a : Nat} {l : List Nat} (h : a ∈ l) :
    l.getD (get_loc a l) 0 = a := by
  induction l with
  | nil => cases h
  | cons b l ih =>
    simp only [get_loc]
    split
    · rename_i hba
      simpa using hba
    · rename_i hba
      have hal : a ∈ l := by
        rcases List.mem_cons.mp h with h1 | h1
        · exact absurd h1.symm hba
        · exact h1
      simpa [List.getD_cons_succ] using ih hal

theorem length_filter_enumFrom_ne {α : Type} (l : List α) (n idx : Nat) :
    ((List.enumFrom n l).filter fun p => p.1 != idx).length =
      if n ≤ idx ∧ idx < n + l.length then l.length - 1 else l.length := by
  induction l generalizing n with
  | nil => simp
  | cons x xs ih =>
    simp only [List.enumFrom, List.filter_cons]
    by_cases hn : n = idx
    · subst hn
      simp only [bne_self_eq_false, Bool.false_eq_true, if_false,
        List.length_cons]
      rw [ih (n + 1)]
      rw [if_neg (by omega), if_pos (by omega)]
      simp
    · have hb : (n != idx) = true := by simpa using hn
      simp only [hb, if_true, List.length_cons]
      rw [ih (n + 1)]
      rcases Nat.lt_or_ge idx n with hlt | hge
      · rw [if_neg (by omega), if_neg (by omega)]
      · have hgt : n + 1 ≤ idx := by omega
        by_cases hin : idx < n + 1 + xs.length
        · rw [if_pos ⟨hgt, hin⟩, if_pos (by omega)]
          have : xs.length ≠ 0 := by
            intro h0
            omega
          omega
        · rw [if_neg (by omega), if_neg (by omega)]

theorem peerCandidates_length {ids : List Nat} {idx : Nat}
    {scores : List ℚ} (hidx : idx < scores.length) :
    (peerCandidates ids idx scores).length = scores.length - 1 := by
  unfold peerCandidates
  rw [List.length_map]
  have h := length_filter_enumFrom_ne scores 0 idx
  rw [if_pos (by omega)] at h
  simpa [List.enum] using h

theorem peerCandidates_fst_ne {ids : List Nat} {idx : Nat}
    {scores : List ℚ} (hnd : ids.Nodup) (hidx : idx < ids.length)
    (hlen : scores.length ≤ ids.length) :
    ∀ x ∈ peerCandidates ids idx scores, x.1 ≠ ids.getD idx 0 := by
  rintro ⟨pid, sc⟩ hx
  unfold peerCandidates at hx
  rcases List.mem_map.mp hx with ⟨p, hp, hpe⟩
  rcases List.mem_filter.mp hp with ⟨hpen, hpne⟩
  obtain ⟨i, a⟩ := p
  have hia := List.mem_enum hpen
  have hi : i < ids.length := lt_of_lt_of_le hia.1 hlen
  have hne : i ≠ idx := by simpa using hpne
  injection hpe with h1 _
  intro hcontra
  rw [← h1] at hcontra
  rw [List.getD_eq_getElem ids 0 hi, List.getD_eq_getElem ids 0 hidx]
    at hcontra
  exact hne ((hnd.getElem_inj_iff).mp hcontra)

theorem peerCandidates_fst_nodup {ids : List Nat} {idx : Nat}
    {scores : List ℚ} (hnd : ids.Nodup) (hlen : scores.length ≤ ids.length) :
    ((peerCandidates ids idx scores).map Prod.fst).Nodup := by
  unfold peerCandidates
  rw [List.map_map]
  have hpl : ((scores.enum.filter fun p => p.1 != idx).Pairwise
      fun a b => a.1 < b.1) :=
    List.Pairwise.sublist (List.filter_sublist _)
      (enum_pairwise_fst_lt scores)
  have hplm := List.Pairwise.and_mem.mp hpl
  refine List.Pairwise.map _ ?_ hplm
  rintro a b ⟨ha, hb, hab⟩
  rcases List.mem_filter.mp ha with ⟨hae, -⟩
  rcases List.mem_filter.mp hb with ⟨hbe, -⟩
  obtain ⟨i, x⟩ := a
  obtain ⟨j, y⟩ := b
  have hi : i < ids.length := lt_of_lt_of_le (List.mem_enum hae).1 hlen
  have hj : j < ids.length := lt_of_lt_of_le (List.mem_enum hbe).1 hlen
  simp only [Function.comp]
  intro hcontra
  rw [List.getD_eq_getElem ids 0 hi, List.getD_eq_getElem ids 0 hj]
    at hcontra
  exact absurd ((hnd.getElem_inj_iff).mp hcontra) (Nat.ne_of_lt hab)

-- ==================================================================
-- C4: find_similar_students caps, excludes self, sorts descending
-- with ties in original row order
-- ==================================================================

/-- Shape of a successful `find_similar_students` call on a state with
vectors and matrix both present, the matrix covering the student's row
position and its row not longer than the vector index (both positional
accesses of the source are then in bounds). -/
theorem find_similar_ok_of_present (cos : List ℚ → List ℚ → ℚ)
    (s : EngineState) (sv : StudentVectors) (M : List (List ℚ))
    (student_id k : Nat)
    (hv : s.student_vectors = some sv)
    (hm : s.similarity_matrix = some M)
    (hmem : student_id ∈ sv.rows.map Prod.fst)
    (hcov : get_loc student_id (sv.rows.map Prod.fst) < M.length)
    (hlen : (M.getD (get_loc student_id (sv.rows.map Prod.fst)) []).length ≤
      (sv.rows.map Prod.fst).length) :
    find_similar_students cos s student_id k none =
      (s, Except.ok ((pySortOn (fun r : Nat × ℚ => -r.2)
        (peerCandidates (sv.rows.map Prod.fst)
          (get_loc student_id (sv.rows.map Prod.fst))
          (M.getD (get_loc student_id (sv.rows.map Prod.fst)) []))).take
            k)) := by
  have hgetE : M[get_loc student_id (sv.rows.map Prod.fst)]? =
      some (M.getD (get_loc student_id (sv.rows.map Prod.fst)) []) := by
    rw [List.getElem?_eq_getElem hcov, List.getD_eq_getElem M [] hcov]
  have hlen' : (M[get_loc student_id (List.map Prod.fst sv.rows)]?.getD
      []).length ≤ sv.rows.length := by
    rw [hgetE]
    simpa using hlen
  simp only [find_similar_students, hv, hm, hmem, hgetE, if_true]
  simp [hlen']

/-- C4: with the engine initialized (vectors and matrix present, the
vector index without duplicates as the pivot guarantees, the matrix
covering the student's position and its row no longer than the index —
the in-bounds states; a stale cached matrix raises `IndexError`
instead), `find_similar_students` succeeds for a student of the index,
returns at most `top_k` pairs, never the queried student itself, sorted
by similarity descending; position-tagged, the sorted candidates are
strictly ordered by (similarity descending, original row order
ascending) — the stable tie-break. -/
theorem find_similar_students_spec (cos : List ℚ → List ℚ → ℚ)
    (s : EngineState) (sv : StudentVectors) (M : List (List ℚ))
    (student_id top_k : Nat)
    (hv : s.student_vectors = some sv)
    (hm : s.similarity_matrix = some M)
    (hnd : (sv.rows.map Prod.fst).Nodup)
    (hmem : student_id ∈ sv.rows.map Prod.fst)
    (hcov : get_loc student_id (sv.rows.map Prod.fst) < M.length)
    (hrow : (M.getD (get_loc student_id (sv.rows.map Prod.fst)) []).length ≤
      (sv.rows.map Prod.fst).length) :
    ∃ out,
      find_similar_students cos s student_id top_k none =
        (s, Except.ok out) ∧
      out.length ≤ top_k ∧
      student_id ∉ out.map Prod.fst ∧
      out.Pairwise (fun a b => b.2 ≤ a.2) ∧
      out = (pySortOn (fun r : Nat × ℚ => -r.2)
        (peerCandidates (sv.rows.map Prod.fst)
          (get_loc student_id (sv.rows.map Prod.fst))
          (M.getD (get_loc student_id (sv.rows.map Prod.fst)) []))).take
            top_k ∧
      (pyTagSort (fun r : Nat × ℚ => -r.2)
        (peerCandidates (sv.rows.map Prod.fst)
          (get_loc student_id (sv.rows.map Prod.fst))
          (M.getD (get_loc student_id (sv.rows.map Prod.fst)) []))).Pairwise
        (fun a b => b.2.2 < a.2.2 ∨ (a.2.2 = b.2.2 ∧ a.1 < b.1)) := by
  have hidx : get_loc student_id (sv.rows.map Prod.fst) <
      (sv.rows.map Prod.fst).length := get_loc_lt_length hmem
  refine ⟨_, ?_, ?_, ?_, ?_, rfl, ?_⟩
  · exact find_similar_ok_of_present cos s sv M student_id top_k hv hm hmem
      hcov hrow
  · rw [List.length_take]
    exact min_le_left _ _
  · intro hcontra
    rcases List.mem_map.mp hcontra with ⟨x, hx, hxe⟩
    have hx1 : x ∈ pySortOn (fun r : Nat × ℚ => -r.2)
        (peerCandidates (sv.rows.map Prod.fst)
          (get_loc student_id (sv.rows.map Prod.fst))
          (M.getD (get_loc student_id (sv.rows.map Prod.fst)) [])) :=
      (List.take_sublist _ _).mem hx
    have hx2 := (pySortOn_perm _ _).mem_iff.mp hx1
    have hne := peerCandidates_fst_ne hnd hidx hrow x hx2
    rw [getD_get_loc hmem] at hne
    exact hne hxe
  · refine List.Pairwise.take ?_
    refine (pySortOn_pairwise_le (fun r : Nat × ℚ => -r.2) _).imp ?_
    intro a b hab
    simpa using hab
  · refine (pyTagSort_pairwise_strict (fun r : Nat × ℚ => -r.2) _).imp ?_
    rintro a b (hab | ⟨heq, hlt⟩)
    · exact Or.inl (by simpa using hab)
    · refine Or.inr ⟨?_, hlt⟩
      simpa using heq

/-- Witness for C4, on the two-student fixture state. -/
theorem find_similar_students_spec_witness :
    ∃ out,
      find_similar_students cosZero stateFix 1 5 none =
        (stateFix, Except.ok out) ∧
      out.length ≤ 5 ∧
      1 ∉ out.map Prod.fst ∧
      out.Pairwise (fun a b => b.2 ≤ a.2) ∧
      out = (pySortOn (fun r : Nat × ℚ => -r.2)
        (peerCandidates (svFix.rows.map Prod.fst)
          (get_loc 1 (svFix.rows.map Prod.fst))
          (matFix.getD (get_loc 1 (svFix.rows.map Prod.fst)) []))).take 5 ∧
      (pyTagSort (fun r : Nat × ℚ => -r.2)
        (peerCandidates (svFix.rows.map Prod.fst)
          (get_loc 1 (svFix.rows.map Prod.fst))
          (matFix.getD (get_loc 1 (svFix.rows.map Prod.fst)) []))).Pairwise
        (fun a b => b.2.2 < a.2.2 ∨ (a.2.2 = b.2.2 ∧ a.1 < b.1)) :=
  find_similar_students_spec cosZero stateFix svFix matFix 1 5 rfl rfl
    (by decide) (by decide) (by decide) (by decide)

-- ==================================================================
-- Lemmas about the pivot index and the round trip
-- ==================================================================

theorem foldl_dedup_nodup (l : List Nat) :
    ∀ acc : List Nat, acc.Nodup →
      (l.foldl (fun acc a => if a ∈ acc then acc else acc ++ [a]) acc).Nodup := by
  induction l with
  | nil => intro acc h; exact h
  | cons a l ih =>
    intro acc h
    simp only [List.foldl_cons]
    split
    · exact ih acc h
    · rename_i ha
      refine ih _ ?_
      simp [List.nodup_append, h, ha]

theorem foldl_dedup_mem (l : List Nat) :
    ∀ acc : List Nat, ∀ x ∈ acc,
      x ∈ l.foldl (fun acc a => if a ∈ acc then acc else acc ++ [a]) acc := by
  induction l with
  | nil => intro acc x hx; exact hx
  | cons a l ih =>
    intro acc x hx
    simp only [List.foldl_cons]
    split
    · exact ih acc x hx
    · exact ih _ x (List.mem_append_left _ hx)

theorem dedupFirst_nodup (l : List Nat) : (dedupFirst l).Nodup :=
  foldl_dedup_nodup l [] List.nodup_nil

theorem dedupFirst_ne_nil {l : List Nat} (h : l ≠ []) : dedupFirst l ≠ [] := by
  match l with
  | [] => exact absurd rfl h
  | a :: l =>
    unfold dedupFirst
    simp only [List.foldl_cons, List.not_mem_nil, if_false, List.nil_append]
    exact List.ne_nil_of_mem (foldl_dedup_mem l [a] a (List.mem_singleton.mpr rfl))

theorem pivotIds_nodup (df : List FeatureRow) : (pivotIds df).Nodup :=
  (List.perm_insertionSort _ _).nodup_iff.mpr
    (dedupFirst_nodup (df.map (·.student_id)))

theorem pivotIds_ne_nil {df : List FeatureRow} (h : df ≠ []) :
    pivotIds df ≠ [] := by
  intro h0
  have hperm := List.perm_insertionSort (· ≤ ·)
    (dedupFirst (df.map (·.student_id)))
  rw [pivotIds] at h0
  rw [h0] at hperm
  refine dedupFirst_ne_nil (l := df.map (·.student_id)) ?_ hperm.symm.eq_nil
  simpa using h

theorem pivotCols_ne_nil {df : List FeatureRow} (h : df ≠ []) :
    pivotCols df ≠ [] := by
  intro h0
  have hperm := List.perm_insertionSort (· ≤ ·)
    (dedupFirst (df.map (·.concept_id)))
  rw [pivotCols] at h0
  rw [h0] at hperm
  refine dedupFirst_ne_nil (l := df.map (·.concept_id)) ?_ hperm.symm.eq_nil
  simpa using h

theorem colsWithAll_ne_nil {df : List FeatureRow} (all_concepts : List Nat)
    (h : df ≠ []) : colsWithAll df all_concepts ≠ [] := by
  obtain ⟨x, hx⟩ := List.exists_mem_of_ne_nil _ (pivotCols_ne_nil h)
  exact List.ne_nil_of_mem (foldl_dedup_mem all_concepts (pivotCols df) x hx)

theorem create_rows_map_fst (s0 : EngineState) (df : List FeatureRow)
    (all_concepts : List Nat) :
    (create_student_vectors s0 df all_concepts).2.rows.map Prod.fst =
      pivotIds df := by
  show ((pivotIds df).map fun sid =>
    (sid, (colsWithAll df all_concepts).map (pivotCell df sid))).map
      Prod.fst = pivotIds df
  rw [List.map_map]
  induction pivotIds df with
  | nil => rfl
  | cons a l ih => simp_all

-- ==================================================================
-- C8: the N-student round trip yields exactly N-1 distinct peers
-- ==================================================================

/-- C8: for a nonempty record table (N distinct students in the pivot
index), `create_student_vectors` then `compute_similarity` then
`find_similar_students(student_id, top_k = N-1)` succeeds and returns
exactly N-1 peers with no duplicate peer id. -/
theorem round_trip_peer_count (cos : List ℚ → List ℚ → ℚ)
    (s0 : EngineState) (records : List FeatureRow)
    (all_concepts : List Nat) (student_id : Nat)
    (hrec : records ≠ [])
    (hmem : student_id ∈
      (create_student_vectors s0 records all_concepts).2.rows.map Prod.fst) :
    ∃ s2 M out,
      compute_similarity cos
          (create_student_vectors s0 records all_concepts).1 =
        (s2, Except.ok M) ∧
      find_similar_students cos s2 student_id
          ((create_student_vectors s0 records all_concepts).2.rows.length - 1)
          none =
        (s2, Except.ok out) ∧
      out.length =
        (create_student_vectors s0 records all_concepts).2.rows.length - 1 ∧
      (out.map Prod.fst).Nodup := by
  have hsv : (create_student_vectors s0 records all_concepts).1.student_vectors
      = some (create_student_vectors s0 records all_concepts).2 := rfl
  have hids := create_rows_map_fst s0 records all_concepts
  have hnd : ((create_student_vectors s0 records
      all_concepts).2.rows.map Prod.fst).Nodup := by
    rw [hids]; exact pivotIds_nodup records
  have hrowsne : (create_student_vectors s0 records all_concepts).2.rows ≠ [] := by
    intro h0
    refine pivotIds_ne_nil hrec ?_
    have hc := congrArg (List.map Prod.fst) h0
    rw [hids] at hc
    simpa using hc
  have hcolsne : (create_student_vectors s0 records all_concepts).2.cols ≠ [] :=
    colsWithAll_ne_nil all_concepts hrec
  have hempty : (create_student_vectors s0 records
      all_concepts).2.isEmptyFrame = false := by
    simp only [StudentVectors.isEmptyFrame, Bool.or_eq_false_iff]
    constructor <;> simpa [List.isEmpty_iff]
  have hcomp : compute_similarity cos
      (create_student_vectors s0 records all_concepts).1 =
      ({ (create_student_vectors s0 records all_concepts).1 with
          similarity_matrix := some (cosMatrix cos
            (create_student_vectors s0 records all_concepts).2.rows) },
        Except.ok (cosMatrix cos
          (create_student_vectors s0 records all_concepts).2.rows)) := by
    simp only [compute_similarity, hsv, hempty]
    simp
  have hidxlt : get_loc student_id
      ((create_student_vectors s0 records all_concepts).2.rows.map Prod.fst) <
      ((create_student_vectors s0 records all_concepts).2.rows.map
        Prod.fst).length := get_loc_lt_length hmem
  have hMlen : (cosMatrix cos
      (create_student_vectors s0 records all_concepts).2.rows).length =
      (create_student_vectors s0 records all_concepts).2.rows.length := by
    simp [cosMatrix]
  have hlenids : ((create_student_vectors s0 records
      all_concepts).2.rows.map Prod.fst).length =
      (create_student_vectors s0 records all_concepts).2.rows.length := by
    simp
  have hcov : get_loc student_id ((create_student_vectors s0 records
      all_concepts).2.rows.map Prod.fst) <
      (cosMatrix cos
        (create_student_vectors s0 records all_concepts).2.rows).length := by
    rw [hMlen, ← hlenids]; exact hidxlt
  have hscores : ((cosMatrix cos
      (create_student_vectors s0 records all_concepts).2.rows).getD
        (get_loc student_id ((create_student_vectors s0 records
          all_concepts).2.rows.map Prod.fst)) []).length =
      (create_student_vectors s0 records all_concepts).2.rows.length := by
    rw [List.getD_eq_getElem _ [] hcov]
    simp [cosMatrix]
  have hle : ((cosMatrix cos
      (create_student_vectors s0 records all_concepts).2.rows).getD
        (get_loc student_id ((create_student_vectors s0 records
          all_concepts).2.rows.map Prod.fst)) []).length ≤
      ((create_student_vectors s0 records all_concepts).2.rows.map
        Prod.fst).length := by
    rw [hscores, hlenids]
  refine ⟨_, _, _, hcomp, find_similar_ok_of_present cos _
    (create_student_vectors s0 records all_concepts).2
    (cosMatrix cos (create_student_vectors s0 records all_concepts).2.rows)
    student_id _ rfl rfl hmem hcov hle, ?_, ?_⟩
  all_goals
    have hcandlen : (peerCandidates
        ((create_student_vectors s0 records all_concepts).2.rows.map Prod.fst)
        (get_loc student_id ((create_student_vectors s0 records
          all_concepts).2.rows.map Prod.fst))
        ((cosMatrix cos
          (create_student_vectors s0 records all_concepts).2.rows).getD
            (get_loc student_id ((create_student_vectors s0 records
              all_concepts).2.rows.map Prod.fst)) [])).length =
        (create_student_vectors s0 records all_concepts).2.rows.length - 1 := by
      rw [peerCandidates_length]
      · rw [hscores]
      · rw [hscores, ← hlenids]; exact hidxlt
    have hsortlen := (pySortOn_perm (fun r : Nat × ℚ => -r.2)
      (peerCandidates
        ((create_student_vectors s0 records all_concepts).2.rows.map Prod.fst)
        (get_loc student_id ((create_student_vectors s0 records
          all_concepts).2.rows.map Prod.fst))
        ((cosMatrix cos
          (create_student_vectors s0 records all_concepts).2.rows).getD
            (get_loc student_id ((create_student_vectors s0 records
              all_concepts).2.rows.map Prod.fst)) []))).length_eq
    first
    | · rw [List.length_take, hsortlen, hcandlen]
        exact min_self _
    | · have hle : ((cosMatrix cos
            (create_student_vectors s0 records all_concepts).2.rows).getD
              (get_loc student_id ((create_student_vectors s0 records
                all_concepts).2.rows.map Prod.fst)) []).length ≤
            ((create_student_vectors s0 records all_concepts).2.rows.map
              Prod.fst).length := by
          rw [hscores, hlenids]
        have hcn := @peerCandidates_fst_nodup
          ((create_student_vectors s0 records all_concepts).2.rows.map
            Prod.fst)
          (get_loc student_id ((create_student_vectors s0 records
            all_concepts).2.rows.map Prod.fst))
          ((cosMatrix cos
            (create_student_vectors s0 records all_concepts).2.rows).getD
              (get_loc student_id ((create_student_vectors s0 records
                all_concepts).2.rows.map Prod.fst)) [])
          hnd hle
        have hns : ((pySortOn (fun r : Nat × ℚ => -r.2)
            (peerCandidates
              ((create_student_vectors s0 records all_concepts).2.rows.map
                Prod.fst)
              (get_loc student_id ((create_student_vectors s0 records
                all_concepts).2.rows.map Prod.fst))
              ((cosMatrix cos
                (create_student_vectors s0 records all_concepts).2.rows).getD
                  (get_loc student_id ((create_student_vectors s0 records
                    all_concepts).2.rows.map Prod.fst)) []))).map
              Prod.fst).Nodup :=
          ((pySortOn_perm (fun r : Nat × ℚ => -r.2)
            (peerCandidates
              ((create_student_vectors s0 records all_concepts).2.rows.map
                Prod.fst)
              (get_loc student_id ((create_student_vectors s0 records
                all_concepts).2.rows.map Prod.fst))
              ((cosMatrix cos
                (create_student_vectors s0 records all_concepts).2.rows).getD
                  (get_loc student_id ((create_student_vectors s0 records
                    all_concepts).2.rows.map Prod.fst)) []))).map
            Prod.fst).nodup_iff.mpr hcn
        rw [List.map_take]
        exact List.Nodup.sublist (List.take_sublist _ _) hns

/-- Witness for C8: the two-student fixture records, one concept. -/
theorem round_trip_peer_count_witness :
    ∃ s2 M out,
      compute_similarity cosZero
          (create_student_vectors ⟨none, none⟩ featuresFix [10]).1 =
        (s2, Except.ok M) ∧
      find_similar_students cosZero s2 1
          ((create_student_vectors ⟨none, none⟩ featuresFix [10]).2.rows.length
            - 1) none =
        (s2, Except.ok out) ∧
      out.length =
        (create_student_vectors ⟨none, none⟩ featuresFix [10]).2.rows.length
          - 1 ∧
      (out.map Prod.fst).Nodup :=
  round_trip_peer_count cosZero ⟨none, none⟩ featuresFix [10] 1
    (by decide) (by decide)

-- ==================================================================
-- C2: the peer-pattern threshold is 70, not 80; the self-skip at 80
-- ==================================================================

theorem strongConceptsOf_score_ge (sv : StudentVectors) (pid : Nat)
    (t : ℚ) : ∀ sc ∈ strongConceptsOf sv pid t, t ≤ sc.mastery_score := by
  intro sc hsc
  unfold strongConceptsOf at hsc
  have hsc' := (List.take_sublist _ _).mem hsc
  rcases List.mem_map.mp hsc' with ⟨p, hp, he⟩
  rcases List.mem_filter.mp hp with ⟨-, hscore⟩
  have ht := of_decide_eq_true hscore
  rw [← he]
  exact ht

theorem strongConceptsOf_length_le (sv : StudentVectors) (pid : Nat)
    (t : ℚ) : (strongConceptsOf sv pid t).length ≤ 5 := by
  unfold strongConceptsOf
  exact List.length_take_le 5 _

theorem behaviorRecForConcept_not_skipped (E : RecEngine)
    (student_id peer_id : Nat) (similarity : ℚ) (sc : StrongConcept)
    (r : Rec) (h : behaviorRecForConcept E student_id peer_id similarity sc
      = some r) :
    r.concept_id = sc.concept_id ∧
    ∀ fr, (E.student_features.filter fun x =>
        x.student_id == student_id && x.concept_id == sc.concept_id).head? =
          some fr →
      fr.mastery_score < 80 := by
  have hpick : ∀ r, behaviorPick E peer_id similarity sc = some r →
      r.concept_id = sc.concept_id := by
    intro r hr
    unfold behaviorPick at hr
    split at hr
    · exact absurd hr (by simp)
    · injection hr with hr
      rw [← hr]
      rfl
  unfold behaviorRecForConcept at h
  split at h
  · rename_i fr0 hfr0
    split at h
    · exact absurd h (by simp)
    · rename_i hlt
      refine ⟨hpick r h, ?_⟩
      intro fr hfr
      rw [hfr0] at hfr
      injection hfr with hfr
      rw [← hfr]
      exact lt_of_not_le hlt
  · rename_i hnone
    refine ⟨hpick r h, ?_⟩
    intro fr hfr
    rw [hnone] at hfr
    exact absurd hfr (by simp)

/-- Counterexample for C2: on the fixture state, the peer-pattern step
of `generate_personalized_plan` (threshold 70, the default) labels the
peer's concept with mastery 75 a strong concept — 75 < 80 — and the
behavior-based step does recommend for it, so the strong concepts used
are not those with mastery at least 80. -/
theorem behavior_threshold_counterexample :
    (analyze_peer_patterns cosZero stateFix 1 5 70).2 = Except.ok patsFix ∧
    ∃ pp ∈ patsFix, ∃ sc ∈ pp.strong_concepts,
      sc.mastery_score < 80 ∧
      ∃ r ∈ get_behavior_based_recommendations engineFix 1 patsFix,
        r.concept_id = sc.concept_id := by
  exact ⟨rfl, by decide⟩

/-- C2 (amended): in the pipeline as `generate_personalized_plan` calls
it, the peer strong concepts are those with the peer's mastery at or
above 70 (`analyze_peer_patterns`'s default threshold — not 80), capped
at the first 5 in vector column order; and a behavior-based
recommendation is only produced for a concept on which the target
student's own (first) mastery row, when it exists, scores below 80. -/
theorem behavior_threshold_amended (cos : List ℚ → List ℚ → ℚ)
    (s s1 : EngineState) (sv : StudentVectors) (E : RecEngine)
    (student_id top_k : Nat) (pats : List PeerPattern)
    (h : analyze_peer_patterns cos s student_id top_k 70 =
      (s1, Except.ok pats))
    (hv : s1.student_vectors = some sv) :
    (∀ pp ∈ pats, pp.strong_concepts = strongConceptsOf sv pp.peer_id 70) ∧
    (∀ pp ∈ pats, ∀ sc ∈ pp.strong_concepts, 70 ≤ sc.mastery_score) ∧
    (∀ pp ∈ pats, pp.strong_concepts.length ≤ 5) ∧
    (∀ r ∈ get_behavior_based_recommendations E student_id pats,
      ∀ fr, (E.student_features.filter fun x =>
          x.student_id == student_id && x.concept_id == r.concept_id).head? =
            some fr →
        fr.mastery_score < 80) := by
  have hform : ∀ pp ∈ pats,
      pp.strong_concepts = strongConceptsOf sv pp.peer_id 70 := by
    simp only [analyze_peer_patterns] at h
    split at h
    · simp at h
    · rename_i s1' sims heqf
      split at h
      · simp at h
      · rename_i sv' heqv
        have h1 : s1' = s1 := congrArg Prod.fst h
        have h2 : (Except.ok (sims.map fun p =>
            ({ peer_id := p.1, similarity := p.2,
               strong_concepts := strongConceptsOf sv' p.1 70 }
                : PeerPattern)) : Except String (List PeerPattern)) =
              Except.ok pats := congrArg Prod.snd h
        injection h2 with h2
        have hsv' : sv' = sv := by
          rw [h1] at heqv
          rw [hv] at heqv
          injection heqv with heqv2
          exact heqv2.symm
        intro pp hpp
        rw [← h2] at hpp
        rcases List.mem_map.mp hpp with ⟨p, -, hpe⟩
        rw [← hpe, hsv']
  refine ⟨hform, ?_, ?_, ?_⟩
  · intro pp hpp sc hsc
    rw [hform pp hpp] at hsc
    exact strongConceptsOf_score_ge sv pp.peer_id 70 sc hsc
  · intro pp hpp
    rw [hform pp hpp]
    exact strongConceptsOf_length_le sv pp.peer_id 70
  · intro r hr fr hfr
    rcases List.mem_flatMap.mp hr with ⟨pp, -, hrin⟩
    rcases List.mem_filterMap.mp hrin with ⟨sc, -, hsome⟩
    have hns := behaviorRecForConcept_not_skipped E student_id pp.peer_id
      pp.similarity sc r hsome
    refine hns.2 fr ?_
    rw [← hns.1]
    exact hfr

/-- Witness for the amended C2, on the fixture pipeline. -/
theorem behavior_threshold_amended_witness :
    (∀ pp ∈ patsFix,
      pp.strong_concepts = strongConceptsOf svFix pp.peer_id 70) ∧
    (∀ pp ∈ patsFix, ∀ sc ∈ pp.strong_concepts, 70 ≤ sc.mastery_score) ∧
    (∀ pp ∈ patsFix, pp.strong_concepts.length ≤ 5) ∧
    (∀ r ∈ get_behavior_based_recommendations engineFix 1 patsFix,
      ∀ fr, (engineFix.student_features.filter fun x =>
          x.student_id == 1 && x.concept_id == r.concept_id).head? =
            some fr →
        fr.mastery_score < 80) :=
  behavior_threshold_amended cosZero stateFix stateFix svFix engineFix 1 5
    patsFix rfl rfl

-- ==================================================================
-- Lemmas about the fusion dict
-- ==================================================================

theorem dictInsert_map_fst (m : List ((Nat × Nat) × Rec)) (k : Nat × Nat)
    (v : Rec) :
    (dictInsert m k v).map Prod.fst =
      if m.any fun e => e.1 == k then m.map Prod.fst
      else m.map Prod.fst ++ [k] := by
  unfold dictInsert
  split
  · rw [List.map_map]
    refine List.map_congr_left ?_
    intro e _
    by_cases he : (e.1 == k) = true
    · simp only [Function.comp, he, if_true]
      exact (eq_of_beq he).symm
    · simp [Function.comp, he]
  · simp

theorem find_map_overwrite (k : Nat × Nat) (v : Rec) :
    ∀ m : List ((Nat × Nat) × Rec), (m.any fun e => e.1 == k) = true →
      (m.map fun e => if e.1 == k then (k, v) else e).find?
        (fun e => e.1 == k) = some (k, v) := by
  intro m hm
  induction m with
  | nil => simp at hm
  | cons e m ih =>
    rw [List.map_cons]
    by_cases he : (e.1 == k) = true
    · rw [if_pos he]
      exact List.find?_cons_of_pos _ (by simp)
    · rw [if_neg he]
      have hm' : (m.any fun e => e.1 == k) = true := by
        simp only [List.any_cons, he, Bool.false_or] at hm
        exact hm
      rw [List.find?_cons_of_neg (p := fun e : (Nat × Nat) × Rec => e.1 == k) _ he]
      exact ih hm'

theorem find_map_overwrite_ne (k : Nat × Nat) (v : Rec) (q : Nat × Nat)
    (h : k ≠ q) :
    ∀ m : List ((Nat × Nat) × Rec),
      (m.map fun e => if e.1 == k then (k, v) else e).find?
        (fun e => e.1 == q) = m.find? fun e => e.1 == q := by
  intro m
  induction m with
  | nil => rfl
  | cons e m ih =>
    rw [List.map_cons]
    by_cases he : (e.1 == k) = true
    · rw [if_pos he]
      have h1 : ¬ (((k, v) : (Nat × Nat) × Rec).1 == q) = true := by
        simpa using h
      have h2 : ¬ (e.1 == q) = true := by
        have heq : e.1 = k := eq_of_beq he
        simpa [heq] using h
      rw [List.find?_cons_of_neg (p := fun e : (Nat × Nat) × Rec => e.1 == q) _ h1,
        List.find?_cons_of_neg (p := fun e : (Nat × Nat) × Rec => e.1 == q) _ h2]
      exact ih
    · rw [if_neg he]
      by_cases hq : (e.1 == q) = true
      · rw [List.find?_cons_of_pos (p := fun e : (Nat × Nat) × Rec => e.1 == q) _ hq,
          List.find?_cons_of_pos (p := fun e : (Nat × Nat) × Rec => e.1 == q) _ hq]
      · rw [List.find?_cons_of_neg (p := fun e : (Nat × Nat) × Rec => e.1 == q) _ hq,
          List.find?_cons_of_neg (p := fun e : (Nat × Nat) × Rec => e.1 == q) _ hq]
        exact ih

theorem dictInsert_find_self (m : List ((Nat × Nat) × Rec)) (k : Nat × Nat)
    (v : Rec) :
    (dictInsert m k v).find? (fun e => e.1 == k) = some (k, v) := by
  unfold dictInsert
  split
  · rename_i hany
    exact find_map_overwrite k v m hany
  · rename_i hany
    rw [List.find?_append]
    have hnone : m.find? (fun e => e.1 == k) = none := by
      rw [List.find?_eq_none]
      intro e he hek
      exact hany (List.any_eq_true.mpr ⟨e, he, hek⟩)
    rw [hnone]
    simp

theorem dictInsert_find_ne (m : List ((Nat × Nat) × Rec)) (k : Nat × Nat)
    (v : Rec) (q : Nat × Nat) (h : k ≠ q) :
    (dictInsert m k v).find? (fun e => e.1 == q) =
      m.find? fun e => e.1 == q := by
  unfold dictInsert
  split
  · exact find_map_overwrite_ne k v q h m
  · rw [List.find?_append]
    have h1 : (([(k, v)] : List ((Nat × Nat) × Rec)).find?
        fun e => e.1 == q) = none := by
      simp [h]
    rw [h1]
    cases m.find? fun e => e.1 == q <;> rfl

theorem mergeRecs_append_single (rs : List Rec) (r : Rec) :
    mergeRecs (rs ++ [r]) = dictInsert (mergeRecs rs) (recKey r) r := by
  unfold mergeRecs
  rw [List.foldl_append]
  rfl

theorem mergeRecs_fst_nodup (rs : List Rec) :
    ((mergeRecs rs).map Prod.fst).Nodup := by
  induction rs using List.reverseRecOn with
  | nil => simp [mergeRecs]
  | append_singleton l r ih =>
    rw [mergeRecs_append_single, dictInsert_map_fst]
    split
    · exact ih
    · rename_i hany
      have hk : recKey r ∉ (mergeRecs l).map Prod.fst := by
        intro hmem
        rcases List.mem_map.mp hmem with ⟨e, he, hee⟩
        exact hany (List.any_eq_true.mpr ⟨e, he, by simp [hee]⟩)
      simp [List.nodup_append, ih, hk]

theorem mergeRecs_find_last (rs : List Rec) (k : Nat × Nat) :
    (mergeRecs rs).find? (fun e => e.1 == k) =
      ((rs.filter fun r => recKey r == k).getLast?).map fun r => (k, r) := by
  induction rs using List.reverseRecOn with
  | nil => simp [mergeRecs]
  | append_singleton l r ih =>
    rw [mergeRecs_append_single]
    by_cases hk : recKey r = k
    · rw [hk, dictInsert_find_self, List.filter_append]
      have hone : (([r] : List Rec).filter fun x => recKey x == k) = [r] := by
        simp [hk]
      rw [hone]
      simp
    · rw [dictInsert_find_ne _ _ _ _ hk, List.filter_append]
      have hnone : (([r] : List Rec).filter fun x => recKey x == k) = [] := by
        simp [hk]
      rw [hnone, List.append_nil]
      exact ih

theorem mergeRecs_fst_eq_key (rs : List Rec) :
    ∀ e ∈ mergeRecs rs, e.1 = recKey e.2 := by
  induction rs using List.reverseRecOn with
  | nil => simp [mergeRecs]
  | append_singleton l r ih =>
    rw [mergeRecs_append_single]
    intro e he
    unfold dictInsert at he
    split at he
    · rcases List.mem_map.mp he with ⟨e0, he0, hee⟩
      by_cases h0 : (e0.1 == recKey r) = true
      · rw [if_pos h0] at hee
        rw [← hee]
      · rw [if_neg h0] at hee
        rw [← hee]
        exact ih e0 he0
    · rcases List.mem_append.mp he with he0 | he0
      · exact ih e he0
      · have he1 : e = (recKey r, r) := List.mem_singleton.mp he0
        rw [he1]

-- ==================================================================
-- C6: fusion by dict keyed (concept_id, resource_id), last writer
-- wins, plan takes the first 5 in insertion order
-- ==================================================================

/-- C6: a successful plan's `recommendations` equal the first 5 values,
in insertion order, of the fusion dict over content ++ behavior
recommendations; the dict's keys are duplicate-free, the value at a key
is the last entry of the input with that key (behavior-based entries,
appended after content-based ones, overwrite on collision), and hence
the plan's recommendations carry no duplicate (concept_id, resource_id)
key. -/
theorem plan_fusion_spec (cos : List ℚ → List ℚ → ℚ) (E : RecEngine)
    (s s' : EngineState) (student_id : Nat) (p : Plan)
    (h : generate_personalized_plan cos E s student_id =
      (s', Except.ok p)) :
    (∃ w pats,
      get_weak_concepts student_id (some E.student_features) = some w ∧
      p.recommendations =
        ((mergeRecs (get_content_based_recommendations E student_id w 3 ++
          get_behavior_based_recommendations E student_id pats)).map
            Prod.snd).take 5) ∧
    (∀ rs : List Rec, ((mergeRecs rs).map Prod.fst).Nodup) ∧
    (∀ (rs : List Rec) (k : Nat × Nat),
      (mergeRecs rs).find? (fun e => e.1 == k) =
        ((rs.filter fun r => recKey r == k).getLast?).map fun r => (k, r)) ∧
    (p.recommendations.map recKey).Nodup := by
  have hi : ∃ w pats,
      get_weak_concepts student_id (some E.student_features) = some w ∧
      p.recommendations =
        ((mergeRecs (get_content_based_recommendations E student_id w 3 ++
          get_behavior_based_recommendations E student_id pats)).map
            Prod.snd).take 5 := by
    simp only [generate_personalized_plan] at h
    split at h
    · simp at h
    · rename_i s1 sims heqf
      split at h
      · simp at h
      · rename_i s2 pats heqa
        split at h
        · simp at h
        · rename_i w heqw
          split at h
          · simp at h
          · rename_i st heqst
            have hp := congrArg Prod.snd h
            simp only at hp
            injection hp with hp
            refine ⟨w, pats, heqw, ?_⟩
            rw [← hp]
  obtain ⟨w, pats, hw, hrec⟩ := hi
  refine ⟨⟨w, pats, hw, hrec⟩, fun rs => mergeRecs_fst_nodup rs,
    fun rs k => mergeRecs_find_last rs k, ?_⟩
  rw [hrec, List.map_take, List.map_map]
  have hmeq : ((mergeRecs (get_content_based_recommendations E student_id w 3
      ++ get_behavior_based_recommendations E student_id pats)).map
        (recKey ∘ Prod.snd)) =
      (mergeRecs (get_content_based_recommendations E student_id w 3 ++
        get_behavior_based_recommendations E student_id pats)).map
          Prod.fst := by
    refine List.map_congr_left ?_
    intro e he
    exact (mergeRecs_fst_eq_key _ e he).symm
  rw [hmeq]
  exact List.Nodup.sublist (List.take_sublist _ _) (mergeRecs_fst_nodup _)

/-- Witness for C6, on the fixture pipeline (where the behavior-based
entry overwrites the content-based entry under the same key). -/
theorem plan_fusion_spec_witness :
    (∃ w pats,
      get_weak_concepts 1 (some engineFix.student_features) = some w ∧
      planFix.recommendations =
        ((mergeRecs (get_content_based_recommendations engineFix 1 w 3 ++
          get_behavior_based_recommendations engineFix 1 pats)).map
            Prod.snd).take 5) ∧
    (∀ rs : List Rec, ((mergeRecs rs).map Prod.fst).Nodup) ∧
    (∀ (rs : List Rec) (k : Nat × Nat),
      (mergeRecs rs).find? (fun e => e.1 == k) =
        ((rs.filter fun r => recKey r == k).getLast?).map fun r => (k, r)) ∧
    (planFix.recommendations.map recKey).Nodup :=
  plan_fusion_spec cosZero engineFix stateFix stateFix 1 planFix rfl

-- ==================================================================
-- C7: learning path — drop unresolved, sort (level, mastery),
-- dedup keep-first, target 80
-- ==================================================================

theorem buildPath_mem : ∀ (v : List Nat) (l : List EnrichedWeak)
    (p : PathStep), p ∈ buildPath v l → ∃ e ∈ l, p = mkStep e := by
  intro v l
  induction l generalizing v with
  | nil =>
    intro p hp
    exact absurd hp (by simp [buildPath])
  | cons e rest ih =>
    intro p hp
    simp only [buildPath] at hp
    split at hp
    · rcases ih v p hp with ⟨e0, he0, hpe⟩
      exact ⟨e0, List.mem_cons_of_mem _ he0, hpe⟩
    · rcases List.mem_cons.mp hp with hpe | hp'
      · exact ⟨e, List.mem_cons_self _ _, hpe⟩
      · rcases ih _ p hp' with ⟨e0, he0, hpe⟩
        exact ⟨e0, List.mem_cons_of_mem _ he0, hpe⟩

theorem buildPath_nodup : ∀ (v : List Nat) (l : List EnrichedWeak),
    (∀ c ∈ (buildPath v l).map (fun p => p.concept_id), c ∉ v) ∧
    ((buildPath v l).map (fun p => p.concept_id)).Nodup := by
  intro v l
  induction l generalizing v with
  | nil =>
    constructor
    · intro c hc
      exact absurd hc (by simp [buildPath])
    · simp [buildPath]
  | cons e rest ih =>
    simp only [buildPath]
    split
    · exact ih v
    · rename_i hv
      obtain ⟨ihn, ihd⟩ := ih (e.row.concept_id :: v)
      constructor
      · intro c hc
        rw [List.map_cons] at hc
        rcases List.mem_cons.mp hc with hce | hc'
        · have hce' : c = e.row.concept_id := hce
          rw [hce']
          exact hv
        · intro hcv
          exact ihn c hc' (List.mem_cons_of_mem _ hcv)
      · rw [List.map_cons, List.nodup_cons]
        refine ⟨?_, ihd⟩
        intro hmem
        exact ihn _ hmem (List.mem_cons_self _ _)

theorem buildPath_find : ∀ (v : List Nat) (l : List EnrichedWeak) (c : Nat),
    c ∉ v →
    (buildPath v l).find? (fun p => p.concept_id == c) =
      (l.find? fun e => e.row.concept_id == c).map mkStep := by
  intro v l
  induction l generalizing v with
  | nil => intro c _; rfl
  | cons e rest ih =>
    intro c hc
    simp only [buildPath]
    split
    · rename_i hv
      rw [ih v c hc]
      have hne : ¬ (e.row.concept_id == c) = true := by
        intro hbe
        rw [eq_of_beq hbe] at hv
        exact hc hv
      rw [List.find?_cons_of_neg
        (p := fun e : EnrichedWeak => e.row.concept_id == c) _ hne]
    · rename_i hv
      by_cases hbc : (e.row.concept_id == c) = true
      · have h1 : ((mkStep e).concept_id == c) = true := hbc
        rw [List.find?_cons_of_pos
            (p := fun p : PathStep => p.concept_id == c) _ h1,
          List.find?_cons_of_pos
            (p := fun e : EnrichedWeak => e.row.concept_id == c) _ hbc]
        rfl
      · have h1 : ¬ ((mkStep e).concept_id == c) = true := hbc
        rw [List.find?_cons_of_neg
            (p := fun p : PathStep => p.concept_id == c) _ h1,
          List.find?_cons_of_neg
            (p := fun e : EnrichedWeak => e.row.concept_id == c) _ hbc]
        refine ih _ c ?_
        intro hmem
        rcases List.mem_cons.mp hmem with h2 | h2
        · rw [h2] at hbc
          exact hbc (beq_self_eq_true _)
        · exact hc h2

theorem enrichWeak_resolves (concepts : List ConceptMeta)
    (weak_concepts : List WeakRow) :
    ∀ e ∈ enrichWeak concepts weak_concepts,
      (concepts.find? fun m => m.concept_id == e.row.concept_id).isSome := by
  intro e he
  rcases List.mem_filterMap.mp he with ⟨w, _, hfw⟩
  rcases Option.map_eq_some'.mp hfw with ⟨m, hm, hme⟩
  have hrow : e.row = w := by rw [← hme]
  rw [hrow, hm]
  rfl

/-- C7: `create_learning_path` keeps only weak concepts that resolve to
a metadata row, every kept step has `target_mastery` 80 (and type
"main"), the concept ids of the path are duplicate-free, the enriched
rows are sorted by `(level, mastery_score)` ascending (lexicographic),
and for every concept the kept step is the first occurrence of that
concept in the sorted enriched list (deduplication keeps the first). -/
theorem create_learning_path_spec (E : RecEngine) (student_id : Nat)
    (weak_concepts : List WeakRow) :
    (∀ step ∈ create_learning_path E student_id weak_concepts,
      step.target_mastery = 80 ∧ step.step_type = "main" ∧
      (E.concepts.find? fun m => m.concept_id == step.concept_id).isSome) ∧
    ((create_learning_path E student_id weak_concepts).map
      (fun p => p.concept_id)).Nodup ∧
    (pySortOn enrichKey (enrichWeak E.concepts weak_concepts)).Pairwise
      (fun a b => enrichKey a ≤ enrichKey b) ∧
    (∀ c : Nat,
      (create_learning_path E student_id weak_concepts).find?
        (fun p => p.concept_id == c) =
      ((pySortOn enrichKey (enrichWeak E.concepts weak_concepts)).find?
        (fun e => e.row.concept_id == c)).map mkStep) := by
  refine ⟨?_, (buildPath_nodup [] _).2, pySortOn_pairwise_le enrichKey _,
    fun c => buildPath_find [] _ c (List.not_mem_nil c)⟩
  intro step hstep
  obtain ⟨e, he, hpe⟩ := buildPath_mem [] _ step hstep
  have he' : e ∈ enrichWeak E.concepts weak_concepts :=
    (pySortOn_perm enrichKey _).mem_iff.mp he
  rw [hpe]
  exact ⟨rfl, rfl, enrichWeak_resolves E.concepts weak_concepts e he'⟩
